import Mathlib

/-!
Shallow embedding of the `movie_app` repository (files `models.py`, `app.py`,
`rest_api.py`): data model rows, the favorites manager, the rating aggregator,
review creation/deletion, admin role management and user serialization.
Machine state is a `DB` record of lists of rows; each HTTP-level operation is a
pure function on `DB` returning either a new state or an error (the enclosing
transaction rolls back on error, so an error leaves the state unchanged).
-/

/-- Row of the `user` table (`models.py`, class `User`). -/
structure User where
  id : Nat
  username : String
  email : Option String
  password_hash : String
  is_admin : Bool
  created_at : Nat
deriving DecidableEq

/-- Row of the `movie` table (`models.py`, class `Movie`).  The `rating`
column is a float in the source; ratings are averages of small integers, so we
model the value exactly as a rational. -/
structure Movie where
  id : Nat
  title : String
  year : Int
  director : Option String
  description : Option String
  genre : Option String
  rating : ℚ
  created_at : Nat
deriving DecidableEq

/-- Row of the `review` table (`models.py`, class `Review`). -/
structure Review where
  id : Nat
  content : String
  rating : Int
  user_id : Nat
  movie_id : Nat
  created_at : Nat
deriving DecidableEq

/-- The relational store: `user`, `movie`, `review` tables and the
`user_favorites` join table of (user_id, movie_id) pairs (`models.py`). -/
structure DB where
  users : List User
  movies : List Movie
  reviews : List Review
  favorites : List (Nat × Nat)
deriving DecidableEq

/-- `User.is_favorite` (`models.py` lines 53-56): filter the user's favorite
rows, then filter by `movie_id` and test `count() > 0`. -/
def is_favorite (db : DB) (uid mid : Nat) : Bool :=
  0 < ((db.favorites.filter (fun p => p.1 == uid)).filter
        (fun p => p.2 == mid)).length

/-- `User.add_favorite` (`models.py` lines 41-45): append the pair when
`is_favorite` is false and return whether an insertion occurred. -/
def add_favorite (db : DB) (uid mid : Nat) : DB × Bool :=
  if !(is_favorite db uid mid) then
    ({ db with favorites := db.favorites ++ [(uid, mid)] }, true)
  else
    (db, false)

/-- `User.remove_favorite` (`models.py` lines 47-51): delete the pair when
present (the join table's composite primary key holds at most one such row)
and return whether a deletion occurred. -/
def remove_favorite (db : DB) (uid mid : Nat) : DB × Bool :=
  if is_favorite db uid mid then
    ({ db with favorites :=
        db.favorites.filter (fun p => !(p.1 == uid && p.2 == mid)) }, true)
  else
    (db, false)

/-- Number of rows of the `user_favorites` join table holding a given
(user, movie) pair; the table's composite primary key keeps this at most 1. -/
def favPairCount (db : DB) (uid mid : Nat) : Nat :=
  (db.favorites.filter (fun p => p.1 == uid && p.2 == mid)).length

/-- Iterated `add_favorite` (consecutive calls by the same user on the same
movie), keeping only the resulting state. -/
def addIter (uid mid : Nat) : Nat → DB → DB
  | 0, db => db
  | n + 1, db => addIter uid mid n (add_favorite db uid mid).1

/-- Example state mirroring the seeded data shape of `init_db` (`app.py`):
an admin, a regular user, one movie with one five-star review by user 1,
and movie 1 favorited by user 1. -/
def exUser1 : User :=
  { id := 1, username := "admin", email := some "admin@example.com",
    password_hash := "hash1", is_admin := true, created_at := 0 }

def exUser2 : User :=
  { id := 2, username := "user", email := some "user@example.com",
    password_hash := "hash2", is_admin := false, created_at := 0 }

def exMovie1 : Movie :=
  { id := 1, title := "Interstellar", year := 2014, director := some "Nolan",
    description := none, genre := some "SciFi", rating := 5, created_at := 0 }

def exReview1 : Review :=
  { id := 1, content := "Incredible movie, stunning visuals!", rating := 5,
    user_id := 1, movie_id := 1, created_at := 0 }

def exDB : DB :=
  { users := [exUser1, exUser2], movies := [exMovie1],
    reviews := [exReview1], favorites := [(1, 1)] }

/-- Round half to even of a rational to an integer: Python's built-in `round`
applied to the exact value (`app.py` relies on `round(float(avg), 1)`). -/
def rne (q : ℚ) : ℤ :=
  if q - (⌊q⌋ : ℚ) < 1/2 then ⌊q⌋
  else if 1/2 < q - (⌊q⌋ : ℚ) then ⌊q⌋ + 1
  else if ⌊q⌋ % 2 = 0 then ⌊q⌋ else ⌊q⌋ + 1

/-- Rounding to one decimal place, `round(x, 1)` in `Movie.update_rating`
(`models.py` line 99), on the exact rational value. -/
def pyround1 (q : ℚ) : ℚ := (rne (q * 10) : ℚ) / 10

/-- Reviews of a movie: rows of `review` with the given `movie_id` (the
`Review.movie_id == self.id` filter of `Movie.update_rating`). -/
def movieReviews (db : DB) (mid : Nat) : List Review :=
  db.reviews.filter (fun r => r.movie_id == mid)

/-- The `func.avg(Review.rating)` scalar query of `Movie.update_rating`:
SQL `AVG` returns NULL (`none`) on an empty set, else the arithmetic mean. -/
def avg_query (db : DB) (mid : Nat) : Option ℚ :=
  if (movieReviews db mid).length = 0 then none
  else some (((movieReviews db mid).map (fun r => (r.rating : ℚ))).sum /
    (movieReviews db mid).length)

/-- `Movie.update_rating` (`models.py` lines 93-101): when the movie has
reviews, set `rating` to `round(float(avg or 0), 1)`; otherwise set it
to `0.0`. -/
def Movie.update_rating (db : DB) (m : Movie) : Movie :=
  if 0 < (movieReviews db m.id).length then
    { m with rating := pyround1 ((avg_query db m.id).getD 0) }
  else
    { m with rating := 0 }

/-- `Movie.query.get(movie_id)`: lookup by primary key. -/
def getMovie (db : DB) (mid : Nat) : Option Movie :=
  db.movies.find? (fun m => m.id == mid)

/-- `Review.query.get(review_id)`: lookup by primary key. -/
def getReview (db : DB) (rid : Nat) : Option Review :=
  db.reviews.find? (fun r => r.id == rid)

/-- The `if movie: movie.update_rating()` step of the review endpoints
(`app.py` lines 164-166 and 190-192): recompute the stored rating of the
movie with the given id, if it exists.  Movie ids are a primary key, so the
guarded map touches exactly the fetched row. -/
def updateMovieRating (db : DB) (mid : Nat) : DB :=
  match getMovie db mid with
  | none => db
  | some _ =>
      { db with movies := db.movies.map fun m =>
          if m.id == mid then Movie.update_rating db m else m }

/-- Spec-side definition (for comparison with the code): `0.0` for a movie
with no reviews, otherwise the arithmetic mean of the review ratings rounded
to one decimal place with round half to even. -/
def specRating (l : List Review) : ℚ :=
  if l = [] then 0
  else pyround1 ((l.map (fun r => (r.rating : ℚ))).sum / l.length)

/-- Every movie's stored rating agrees with the spec-side formula. -/
def RatingInv (db : DB) : Prop :=
  ∀ m ∈ db.movies, m.rating = specRating (movieReviews db m.id)

/-- API error taxonomy: flask-restful status responses, the abort calls, the
login redirect of the web layer, a failed form validation (the page is
re-rendered without mutating), and an IntegrityError raised when a flush
violates a declared table constraint (the transaction rolls back). -/
inductive ApiError
  | badRequest
  | conflict
  | forbidden
  | notFound
  | integrityError
  | validationError
  | loginRedirect
deriving DecidableEq

/-- The `Review.query.filter_by(movie_id=..., user_id=...).first()` existence
check of `ReviewListAPI.post`. -/
def hasReview (db : DB) (uid mid : Nat) : Bool :=
  0 < (db.reviews.filter (fun r => r.movie_id == mid && r.user_id == uid)).length

/-- `ReviewListAPI.post` (`app.py` lines 140-169, identical in
`rest_api.py`): parse `content` and `rating` (missing or non-integer rating
is a parser 400), reject a duplicate (user, movie) review with 400, insert
the review, recompute the movie's rating, commit.  The flush enforces the
`rating_range_check` constraint of `Review.__table_args__`; a violation
raises and rolls the transaction back. -/
def reviewListPost (db : DB) (uid mid : Nat) (content : Option String)
    (rating : Option Int) (rid now : Nat) : Except ApiError DB :=
  match content, rating with
  | none, _ => .error .badRequest
  | _, none => .error .badRequest
  | some c, some rt =>
      if hasReview db uid mid then .error .conflict
      else if rt < 1 || 5 < rt then .error .integrityError
      else
        let review : Review :=
          { id := rid, content := c, rating := rt, user_id := uid,
            movie_id := mid, created_at := now }
        .ok (updateMovieRating { db with reviews := db.reviews ++ [review] } mid)

/-- `ReviewAPI.delete` (`app.py` lines 178-195, identical in `rest_api.py`
lines 131-148): 404 when the review is missing; 403 unless the caller is the
author or an admin; otherwise delete the review, recompute the movie's
rating, commit. -/
def reviewDelete (db : DB) (actor : User) (rid : Nat) : Except ApiError DB :=
  match getReview db rid with
  | none => .error .notFound
  | some review =>
      if review.user_id != actor.id && !actor.is_admin then .error .forbidden
      else
        .ok (updateMovieRating
          { db with reviews := db.reviews.filter (fun r => !(r.id == rid)) }
          review.movie_id)

/-- `ReviewForm` validation (`app.py` lines 47-50): content at least 10
characters (`DataRequired` plus `Length(min=10)`), rating an integer with
`NumberRange(min=1, max=5)` (`DataRequired` rejects the falsy 0, already
outside the range). -/
def reviewFormValid (content : String) (rating : Int) : Bool :=
  decide (10 ≤ content.length) && decide (1 ≤ rating) && decide (rating ≤ 5)

/-- `movie_detail` POST (`app.py` lines 518-544): 404 when the movie is
missing; when the form validates, an anonymous caller is redirected to login
with no mutation; otherwise the review is inserted with no app-level
duplicate check, so the flush triggered by `movie.update_rating()` enforces
the `unique_user_movie_review` and `rating_range_check` constraints of
`Review.__table_args__`, raising and rolling back on violation. -/
def movieDetailPost (db : DB) (uid? : Option Nat) (mid : Nat)
    (content : String) (rating : Int) (rid now : Nat) : Except ApiError DB :=
  match getMovie db mid with
  | none => .error .notFound
  | some _ =>
      if reviewFormValid content rating then
        match uid? with
        | none => .error .loginRedirect
        | some uid =>
            if hasReview db uid mid then .error .integrityError
            else if rating < 1 || 5 < rating then .error .integrityError
            else
              let review : Review :=
                { id := rid, content := content, rating := rating,
                  user_id := uid, movie_id := mid, created_at := now }
              .ok (updateMovieRating
                { db with reviews := db.reviews ++ [review] } mid)
      else .error .validationError

/-- A fresh `Movie` row (`MovieListAPI.post` / `add_movie`): the `rating`
column takes its declared default `0.0` (`models.py` line 87). -/
def movieNew (id : Nat) (title : String) (year : Int)
    (director description genre : Option String) (now : Nat) : Movie :=
  { id := id, title := title, year := year, director := director,
    description := description, genre := genre, rating := 0, created_at := now }

/-- The state produced by a request: the new state on success, the unchanged
state on error (single-transaction semantics: errors roll back). -/
def dbAfter (db : DB) (r : Except ApiError DB) : DB :=
  match r with
  | .ok d => d
  | .error _ => db

/-- Example state with a movie that has no reviews yet (`rating` holds its
column default `0.0`), used to exercise the mutation operations. -/
def exMovie0 : Movie :=
  movieNew 2 "Dune" 2021 (some "Villeneuve") none (some "SciFi") 0

def exDB0 : DB :=
  { users := [exUser1, exUser2], movies := [exMovie0],
    reviews := [], favorites := [] }

/-- The `unique_user_movie_review` constraint of `Review.__table_args__`
(`models.py` lines 143-146): no two review rows share a (user, movie) pair. -/
def ReviewUniq (db : DB) : Prop :=
  List.Pairwise
    (fun a b => ¬(a.user_id = b.user_id ∧ a.movie_id = b.movie_id)) db.reviews

/-- Web-layer responses: `abort(403)`, `get_or_404`, and a redirect carrying
a flashed message and category. -/
inductive WebResp
  | forbidden
  | notFound
  | redirect (endpoint : String) (flashMsg : String) (flashCat : String)
deriving DecidableEq

/-- `User.query.get_or_404(user_id)` lookup by primary key. -/
def getUser (db : DB) (uid : Nat) : Option User :=
  db.users.find? (fun u => u.id == uid)

/-- `make_admin` (`app.py` lines 771-789): admins only; 404 on a missing
target; a self-targeted change is rejected with a warning flash and no
mutation; otherwise the target's `is_admin` flag is set. -/
def make_admin (db : DB) (actor : User) (targetId : Nat) : DB × WebResp :=
  if !actor.is_admin then (db, .forbidden)
  else
    match getUser db targetId with
    | none => (db, .notFound)
    | some user =>
        if user.id == actor.id then
          (db, .redirect "admin_users"
            "Вы не можете изменить свой собственный статус" "warning")
        else
          ({ db with users := db.users.map fun u =>
              if u.id == targetId then { u with is_admin := true } else u },
            .redirect "admin_users"
              ("Пользователь " ++ user.username ++ " теперь администратор")
              "success")

/-- `remove_admin` (`app.py` lines 792-810): same shape as `make_admin`,
clearing the target's `is_admin` flag. -/
def remove_admin (db : DB) (actor : User) (targetId : Nat) : DB × WebResp :=
  if !actor.is_admin then (db, .forbidden)
  else
    match getUser db targetId with
    | none => (db, .notFound)
    | some user =>
        if user.id == actor.id then
          (db, .redirect "admin_users"
            "Вы не можете изменить свой собственный статус" "warning")
        else
          ({ db with users := db.users.map fun u =>
              if u.id == targetId then { u with is_admin := false } else u },
            .redirect "admin_users"
              ("Пользователь " ++ user.username ++ " больше не администратор")
              "success")

/-- JSON values appearing in the serialized dictionaries. -/
inductive JVal
  | s (v : String)
  | i (v : Int)
  | b (v : Bool)
  | null
deriving DecidableEq

/-- `self.favorite_movies.count()` for a user. -/
def favoriteCount (db : DB) (uid : Nat) : Nat :=
  (db.favorites.filter (fun p => p.1 == uid)).length

/-- `User.to_dict` (`models.py` lines 58-66): the serialized dictionary as
an association list, `created_at.isoformat()` rendered as the timestamp
value. -/
def User.to_dict (db : DB) (u : User) : List (String × JVal) :=
  [("id", .i u.id), ("username", .s u.username),
    ("email", match u.email with | some e => .s e | none => .null),
    ("is_admin", .b u.is_admin),
    ("created_at", .i u.created_at),
    ("favorite_count", .i (favoriteCount db u.id))]

lemma is_favorite_eq_count (db : DB) (uid mid : Nat) :
    is_favorite db uid mid = decide (0 < favPairCount db uid mid) := by
  simp [is_favorite, favPairCount, List.filter_filter, Bool.and_comm]

lemma is_favorite_false_iff (db : DB) (uid mid : Nat) :
    is_favorite db uid mid = false ↔ favPairCount db uid mid = 0 := by
  rw [is_favorite_eq_count]
  simp [Nat.pos_iff_ne_zero]

lemma is_favorite_true_iff (db : DB) (uid mid : Nat) :
    is_favorite db uid mid = true ↔ 0 < favPairCount db uid mid := by
  rw [is_favorite_eq_count]
  simp

lemma favPairCount_add_absent (db : DB) (uid mid : Nat)
    (h : is_favorite db uid mid = false) :
    favPairCount (add_favorite db uid mid).1 uid mid =
      favPairCount db uid mid + 1 := by
  simp only [add_favorite, h, Bool.not_false, if_pos]
  simp [favPairCount, List.filter_append]

lemma add_favorite_present (db : DB) (uid mid : Nat)
    (h : is_favorite db uid mid = true) :
    add_favorite db uid mid = (db, false) := by
  simp [add_favorite, h]

lemma addIter_count_one (uid mid : Nat) (n : Nat) (db : DB)
    (h : favPairCount db uid mid = 1) :
    addIter uid mid n db = db := by
  induction n with
  | zero => rfl
  | succ k ih =>
      have hfav : is_favorite db uid mid = true := by
        rw [is_favorite_true_iff, h]; exact Nat.one_pos
      simp [addIter, add_favorite_present db uid mid hfav, ih]

lemma addIter_reaches_one (uid mid : Nat) (n : Nat) (db : DB)
    (hkey : favPairCount db uid mid ≤ 1) (hn : 0 < n) :
    favPairCount (addIter uid mid n db) uid mid = 1 := by
  induction n with
  | zero => exact absurd hn (by simp)
  | succ k ih =>
      rcases Nat.lt_or_ge (favPairCount db uid mid) 1 with h0 | h1
      · have h0' : favPairCount db uid mid = 0 := Nat.lt_one_iff.mp h0
        have hfav : is_favorite db uid mid = false :=
          (is_favorite_false_iff db uid mid).mpr h0'
        have hone : favPairCount (add_favorite db uid mid).1 uid mid = 1 := by
          rw [favPairCount_add_absent db uid mid hfav, h0']
        simp only [addIter]
        rcases Nat.eq_zero_or_pos k with hk | hk
        · subst hk; simpa [addIter] using hone
        · rw [addIter_count_one uid mid k _ hone]
          exact hone
      · have h1' : favPairCount db uid mid = 1 := Nat.le_antisymm hkey h1
        rw [addIter_count_one uid mid (k + 1) db h1']
        exact h1'

/-- **C3**: `add_favorite` is idempotent: it inserts the pair when absent and
returns `true`; when the pair is already present it makes no change and
returns `false`; after any positive number of consecutive `add` calls,
`is_favorite` is true and the pair is present exactly once (given the join
table's key invariant: at most one row per pair). -/
theorem add_favorite_idempotent (db : DB) (uid mid : Nat) (n : Nat)
    (hkey : favPairCount db uid mid ≤ 1) (hn : 0 < n) :
    (is_favorite db uid mid = false →
      (add_favorite db uid mid).2 = true ∧
      favPairCount (add_favorite db uid mid).1 uid mid =
        favPairCount db uid mid + 1) ∧
    (is_favorite db uid mid = true → add_favorite db uid mid = (db, false)) ∧
    (is_favorite (addIter uid mid n db) uid mid = true ∧
      favPairCount (addIter uid mid n db) uid mid = 1) := by
  refine ⟨fun h => ⟨?_, favPairCount_add_absent db uid mid h⟩,
    add_favorite_present db uid mid, ?_, addIter_reaches_one uid mid n db hkey hn⟩
  · simp [add_favorite, h]
  · rw [is_favorite_true_iff, addIter_reaches_one uid mid n db hkey hn]
    exact Nat.one_pos

theorem add_favorite_idempotent_witness :
    is_favorite (addIter 2 1 3 exDB) 2 1 = true ∧
      favPairCount (addIter 2 1 3 exDB) 2 1 = 1 :=
  (add_favorite_idempotent exDB 2 1 3 (by decide) (by decide)).2.2

lemma is_favorite_remove_self (db : DB) (uid mid : Nat) :
    is_favorite (remove_favorite db uid mid).1 uid mid = false := by
  rcases h : is_favorite db uid mid with _ | _
  · simp [remove_favorite, h]
  · simp only [remove_favorite, h, if_pos]
    rw [is_favorite_false_iff]
    simp only [favPairCount, List.filter_filter]
    rw [List.length_eq_zero, List.filter_eq_nil_iff]
    intro p _
    rcases h1 : (p.1 == uid) with _ | _ <;>
      rcases h2 : (p.2 == mid) with _ | _ <;> simp [h1, h2]

/-- **C4**: `remove_favorite` deletes the pair when present and returns
`true`; on a non-favorited pair it is a no-op returning `false`, not an
error; immediately after `remove_favorite`, `is_favorite` is false. -/
theorem remove_favorite_correct (db : DB) (uid mid : Nat) :
    (is_favorite db uid mid = true → (remove_favorite db uid mid).2 = true) ∧
    (is_favorite db uid mid = false → remove_favorite db uid mid = (db, false)) ∧
    is_favorite (remove_favorite db uid mid).1 uid mid = false := by
  refine ⟨fun h => ?_, fun h => ?_, is_favorite_remove_self db uid mid⟩
  · simp [remove_favorite, h]
  · simp [remove_favorite, h]

theorem remove_favorite_correct_witness :
    (remove_favorite exDB 1 1).2 = true ∧
      is_favorite (remove_favorite exDB 1 1).1 1 1 = false :=
  ⟨(remove_favorite_correct exDB 1 1).1 (by decide),
    (remove_favorite_correct exDB 1 1).2.2⟩

lemma favPairCount_add_other (db : DB) (uid mid uid' mid' : Nat)
    (hne : (uid', mid') ≠ (uid, mid)) :
    favPairCount (add_favorite db uid mid).1 uid' mid' =
      favPairCount db uid' mid' := by
  rcases h : is_favorite db uid mid with _ | _
  · simp only [add_favorite, h, Bool.not_false, if_pos]
    simp only [favPairCount, List.filter_append, List.length_append]
    have hfalse : ((uid : Nat) == uid' && (mid : Nat) == mid') = false := by
      simp only [Bool.and_eq_false_iff, beq_eq_false_iff_ne, ne_eq]
      by_cases hu : uid = uid'
      · right; intro hm; exact hne (by rw [hu, hm])
      · left; exact hu
    simp [List.filter_cons, hfalse]
  · simp [add_favorite, h]

lemma favPairCount_remove_other (db : DB) (uid mid uid' mid' : Nat)
    (hne : (uid', mid') ≠ (uid, mid)) :
    favPairCount (remove_favorite db uid mid).1 uid' mid' =
      favPairCount db uid' mid' := by
  rcases h : is_favorite db uid mid with _ | _
  · simp [remove_favorite, h]
  · simp only [remove_favorite, h, if_pos]
    simp only [favPairCount, List.filter_filter]
    congr 1
    apply List.filter_congr
    intro p _
    rcases hp : (p.1 == uid' && p.2 == mid') with _ | _
    · simp [hp]
    · simp only [Bool.and_eq_true, beq_iff_eq] at hp
      have hfalse : (p.1 == uid && p.2 == mid) = false := by
        rw [hp.1, hp.2]
        simp only [Bool.and_eq_false_iff, beq_eq_false_iff_ne, ne_eq]
        by_cases hu : uid' = uid
        · right; intro hm; exact hne (by rw [hu, hm])
        · left; exact hu
      rw [hfalse]
      simp

/-- **C10**: `add_favorite` and `remove_favorite` only touch the membership of
the given (user, movie) pair in the favorites join table: every other pair's
`is_favorite` status is unchanged, and the `user`, `movie` and `review` tables
(hence every movie's rating and review list) are untouched. -/
theorem favorite_frame (db : DB) (uid mid uid' mid' : Nat)
    (hne : (uid', mid') ≠ (uid, mid)) :
    is_favorite (add_favorite db uid mid).1 uid' mid' =
        is_favorite db uid' mid' ∧
    is_favorite (remove_favorite db uid mid).1 uid' mid' =
        is_favorite db uid' mid' ∧
    (add_favorite db uid mid).1.users = db.users ∧
    (add_favorite db uid mid).1.movies = db.movies ∧
    (add_favorite db uid mid).1.reviews = db.reviews ∧
    (remove_favorite db uid mid).1.users = db.users ∧
    (remove_favorite db uid mid).1.movies = db.movies ∧
    (remove_favorite db uid mid).1.reviews = db.reviews := by
  refine ⟨?_, ?_, ?_, ?_, ?_, ?_, ?_, ?_⟩
  · rw [is_favorite_eq_count, is_favorite_eq_count,
      favPairCount_add_other db uid mid uid' mid' hne]
  · rw [is_favorite_eq_count, is_favorite_eq_count,
      favPairCount_remove_other db uid mid uid' mid' hne]
  all_goals
    simp only [add_favorite, remove_favorite]
    rcases is_favorite db uid mid with _ | _ <;> simp

theorem favorite_frame_witness :
    is_favorite (add_favorite exDB 1 1).1 2 1 = is_favorite exDB 2 1 :=
  (favorite_frame exDB 1 1 2 1 (by decide)).1

lemma update_rating_rating (db : DB) (m : Movie) :
    (Movie.update_rating db m).rating = specRating (movieReviews db m.id) := by
  cases h : movieReviews db m.id with
  | nil => simp [Movie.update_rating, specRating, avg_query, h]
  | cons a l => simp [Movie.update_rating, specRating, avg_query, h]

lemma update_rating_id (db : DB) (m : Movie) :
    (Movie.update_rating db m).id = m.id := by
  unfold Movie.update_rating
  split <;> rfl

lemma updateMovieRating_reviews (db : DB) (mid : Nat) :
    (updateMovieRating db mid).reviews = db.reviews := by
  unfold updateMovieRating
  cases getMovie db mid <;> rfl

lemma movieReviews_updateMovieRating (db : DB) (mid x : Nat) :
    movieReviews (updateMovieRating db mid) x = movieReviews db x := by
  unfold movieReviews
  rw [updateMovieRating_reviews]

lemma getMovie_none_iff (db : DB) (mid : Nat) :
    getMovie db mid = none ↔ ∀ m ∈ db.movies, m.id ≠ mid := by
  unfold getMovie
  rw [List.find?_eq_none]
  simp

lemma ratingInv_updateMovieRating (db db0 : DB) (mid : Nat)
    (hmov : db0.movies = db.movies)
    (hrev : ∀ x : Nat, x ≠ mid → movieReviews db0 x = movieReviews db x)
    (h : RatingInv db) :
    RatingInv (updateMovieRating db0 mid) := by
  intro m hm
  rw [movieReviews_updateMovieRating]
  cases hg : getMovie db0 mid with
  | none =>
      simp only [updateMovieRating, hg] at hm
      have hmid : m.id ≠ mid := (getMovie_none_iff db0 mid).mp hg m hm
      rw [hrev m.id hmid]
      exact h m (hmov ▸ hm)
  | some mv =>
      simp only [updateMovieRating, hg] at hm
      rcases List.mem_map.mp hm with ⟨m0, hm0, rfl⟩
      by_cases hid : m0.id = mid
      · have hb : (m0.id == mid) = true := by simpa using hid
        simp only [hb, if_true]
        rw [update_rating_id, update_rating_rating]
      · have hb : (m0.id == mid) = false := by simpa using hid
        simp only [hb, Bool.false_eq_true, if_false]
        rw [hrev m0.id hid]
        exact h m0 (hmov ▸ hm0)

lemma movieReviews_insert_ne (db : DB) (rv : Review) (x : Nat)
    (hx : x ≠ rv.movie_id) :
    movieReviews { db with reviews := db.reviews ++ [rv] } x =
      movieReviews db x := by
  simp only [movieReviews, List.filter_append]
  have hb : (rv.movie_id == x) = false := by
    rw [beq_eq_false_iff_ne]
    exact fun hc => hx hc.symm
  simp [List.filter_cons, hb]

lemma movieReviews_erase_ne (db : DB) (rid : Nat) (r : Review)
    (hr : getReview db rid = some r)
    (hids : (db.reviews.map Review.id).Nodup)
    (x : Nat) (hx : x ≠ r.movie_id) :
    movieReviews
        { db with reviews := db.reviews.filter (fun t => !(t.id == rid)) } x =
      movieReviews db x := by
  simp only [movieReviews, List.filter_filter]
  apply List.filter_congr
  intro t ht
  rcases hmv : (t.movie_id == x) with _ | _
  · simp [hmv]
  · have hrmem : r ∈ db.reviews := List.mem_of_find?_eq_some hr
    have hrid : r.id = rid := by simpa using List.find?_some hr
    have htid : (t.id == rid) = false := by
      rw [beq_eq_false_iff_ne]
      intro hid
      have ht_eq : t = r :=
        List.inj_on_of_nodup_map hids ht hrmem (by rw [hid, hrid])
      rw [ht_eq] at hmv
      simp only [beq_iff_eq] at hmv
      exact hx hmv.symm
    simp [hmv, htid]

lemma ratingInv_insert (db : DB) (rv : Review) (h : RatingInv db) :
    RatingInv
      (updateMovieRating { db with reviews := db.reviews ++ [rv] }
        rv.movie_id) :=
  ratingInv_updateMovieRating db _ rv.movie_id rfl
    (fun x hx => movieReviews_insert_ne db rv x hx) h

lemma ratingInv_delete (db : DB) (rid : Nat) (r : Review)
    (hr : getReview db rid = some r)
    (hids : (db.reviews.map Review.id).Nodup) (h : RatingInv db) :
    RatingInv
      (updateMovieRating
        { db with reviews := db.reviews.filter (fun t => !(t.id == rid)) }
        r.movie_id) :=
  ratingInv_updateMovieRating db _ r.movie_id rfl
    (fun x hx => movieReviews_erase_ne db rid r hr hids x hx) h

/-- **C1**: every movie's stored rating is `0.0` when it has no reviews and
otherwise the arithmetic mean of its reviews' ratings rounded to one decimal
place, round half to even; the property is preserved by every review insert
(API and web form) and every review delete, because `update_rating` is
invoked on each such mutation, and a freshly created movie starts at `0.0`. -/
theorem rating_consistency (db : DB) (hinv : RatingInv db)
    (hids : (db.reviews.map Review.id).Nodup) :
    (∀ uid mid content rating rid now,
      RatingInv (dbAfter db (reviewListPost db uid mid content rating rid now))) ∧
    (∀ uid? mid content rating rid now,
      RatingInv (dbAfter db (movieDetailPost db uid? mid content rating rid now))) ∧
    (∀ actor rid, RatingInv (dbAfter db (reviewDelete db actor rid))) ∧
    (∀ i title year director description genre now,
      (movieNew i title year director description genre now).rating = 0) := by
  refine ⟨?_, ?_, ?_, ?_⟩
  · intro uid mid content rating rid now
    cases content with
    | none => cases rating <;> simpa [reviewListPost, dbAfter] using hinv
    | some c =>
        cases rating with
        | none => simpa [reviewListPost, dbAfter] using hinv
        | some rt =>
            rcases h1 : hasReview db uid mid with _ | _
            · rcases h2 : (rt < 1 || 5 < rt) with _ | _
              · simpa [reviewListPost, h1, h2, dbAfter] using
                  ratingInv_insert db
                    { id := rid, content := c, rating := rt, user_id := uid,
                      movie_id := mid, created_at := now } hinv
              · simpa [reviewListPost, h1, h2, dbAfter] using hinv
            · simpa [reviewListPost, h1, dbAfter] using hinv
  · intro uid? mid content rating rid now
    cases hg : getMovie db mid with
    | none => simpa [movieDetailPost, hg, dbAfter] using hinv
    | some mv =>
        rcases hv : reviewFormValid content rating with _ | _
        · simpa [movieDetailPost, hg, hv, dbAfter] using hinv
        · cases uid? with
          | none => simpa [movieDetailPost, hg, hv, dbAfter] using hinv
          | some uid =>
              rcases h1 : hasReview db uid mid with _ | _
              · rcases h2 : (rating < 1 || 5 < rating) with _ | _
                · simpa [movieDetailPost, hg, hv, h1, h2, dbAfter] using
                    ratingInv_insert db
                      { id := rid, content := content, rating := rating,
                        user_id := uid, movie_id := mid, created_at := now } hinv
                · simpa [movieDetailPost, hg, hv, h1, h2, dbAfter] using hinv
              · simpa [movieDetailPost, hg, hv, h1, dbAfter] using hinv
  · intro actor rid
    cases hg : getReview db rid with
    | none => simpa [reviewDelete, hg, dbAfter] using hinv
    | some r =>
        rcases ha : ((r.user_id != actor.id) && !actor.is_admin) with _ | _
        · simpa [reviewDelete, hg, ha, dbAfter] using
            ratingInv_delete db rid r hg hids hinv
        · simpa [reviewDelete, hg, ha, dbAfter] using hinv
  · intro i title year director description genre now
    rfl

lemma le_rne (a : ℤ) (x : ℚ) (ha : (a : ℚ) ≤ x) : a ≤ rne x := by
  have hf : a ≤ ⌊x⌋ := Int.le_floor.mpr ha
  unfold rne
  split_ifs <;> omega

lemma rne_le (b : ℤ) (x : ℚ) (hb : x ≤ (b : ℚ)) : rne x ≤ b := by
  have hfb : ⌊x⌋ ≤ b := by
    have h := Int.floor_le_floor hb
    simpa using h
  have hkey : (1 : ℚ)/2 ≤ x - (⌊x⌋ : ℚ) → ⌊x⌋ + 1 ≤ b := by
    intro hr
    by_contra hlt
    have hbf : b ≤ ⌊x⌋ := by omega
    have h1 : x ≤ (⌊x⌋ : ℚ) := le_trans hb (by exact_mod_cast hbf)
    have h2 : (⌊x⌋ : ℚ) ≤ x := Int.floor_le x
    have h0 : x - (⌊x⌋ : ℚ) = 0 := by linarith
    rw [h0] at hr
    linarith
  unfold rne
  split_ifs with h1 h2 h3
  · exact hfb
  · exact hkey (by linarith)
  · exact hfb
  · exact hkey (by linarith)

lemma pyround1_bounds (a b : ℤ) (x : ℚ) (ha : (a : ℚ) ≤ x)
    (hb : x ≤ (b : ℚ)) : (a : ℚ) ≤ pyround1 x ∧ pyround1 x ≤ (b : ℚ) := by
  have h10 : (0 : ℚ) < 10 := by norm_num
  have hle : ((10 * a : ℤ) : ℚ) ≤ x * 10 := by push_cast; linarith
  have hge : x * 10 ≤ ((10 * b : ℤ) : ℚ) := by push_cast; linarith
  have h1 := le_rne (10 * a) (x * 10) hle
  have h2 := rne_le (10 * b) (x * 10) hge
  have h1' : ((10 * a : ℤ) : ℚ) ≤ ((rne (x * 10) : ℤ) : ℚ) := by
    exact_mod_cast h1
  have h2' : ((rne (x * 10) : ℤ) : ℚ) ≤ ((10 * b : ℤ) : ℚ) := by
    exact_mod_cast h2
  constructor
  · rw [pyround1, le_div_iff₀ h10]
    push_cast at h1' ⊢
    linarith
  · rw [pyround1, div_le_iff₀ h10]
    push_cast at h2' ⊢
    linarith

lemma list_sum_le_mul (l : List ℚ) (c : ℚ) (h : ∀ x ∈ l, x ≤ c) :
    l.sum ≤ l.length * c := by
  induction l with
  | nil => simp
  | cons a t ih =>
      simp only [List.sum_cons, List.length_cons]
      have ha := h a (by simp)
      have ht := ih (fun x hx => h x (by simp [hx]))
      push_cast
      linarith

lemma mul_le_list_sum (l : List ℚ) (c : ℚ) (h : ∀ x ∈ l, c ≤ x) :
    l.length * c ≤ l.sum := by
  induction l with
  | nil => simp
  | cons a t ih =>
      simp only [List.sum_cons, List.length_cons]
      have ha := h a (by simp)
      have ht := ih (fun x hx => h x (by simp [hx]))
      push_cast
      linarith

lemma specRating_bounds (l : List Review) (hne : l ≠ [])
    (h : ∀ r ∈ l, 1 ≤ r.rating ∧ r.rating ≤ 5) :
    1 ≤ specRating l ∧ specRating l ≤ 5 := by
  have hlen : (0 : ℚ) < l.length := by
    have hp : 0 < l.length := List.length_pos.mpr hne
    exact_mod_cast hp
  have hS1 : (l.length : ℚ) * 1 ≤ (l.map (fun r => (r.rating : ℚ))).sum := by
    have := mul_le_list_sum (l.map (fun r => (r.rating : ℚ))) 1 ?_
    · simpa using this
    · intro x hx
      rcases List.mem_map.mp hx with ⟨r, hr, rfl⟩
      exact_mod_cast (h r hr).1
  have hS5 : (l.map (fun r => (r.rating : ℚ))).sum ≤ (l.length : ℚ) * 5 := by
    have := list_sum_le_mul (l.map (fun r => (r.rating : ℚ))) 5 ?_
    · simpa using this
    · intro x hx
      rcases List.mem_map.mp hx with ⟨r, hr, rfl⟩
      exact_mod_cast (h r hr).2
  have hmean1 : (1 : ℚ) ≤ (l.map (fun r => (r.rating : ℚ))).sum / l.length := by
    rw [le_div_iff₀ hlen]
    linarith
  have hmean5 : (l.map (fun r => (r.rating : ℚ))).sum / l.length ≤ 5 := by
    rw [div_le_iff₀ hlen]
    linarith
  have hb := pyround1_bounds 1 5
    ((l.map (fun r => (r.rating : ℚ))).sum / l.length)
    (by exact_mod_cast hmean1) (by exact_mod_cast hmean5)
  unfold specRating
  rw [if_neg hne]
  constructor
  · exact_mod_cast hb.1
  · exact_mod_cast hb.2

/-- **C9**: for a movie all of whose reviews carry ratings in [1, 5] (the
`rating_range_check` constraint), `update_rating` never fails when the
average query yields no value (the `avg or 0` default plus the emptiness
guard), stores exactly `0.0` when the movie has no reviews, and otherwise
stores a value inside [1.0, 5.0]. -/
theorem update_rating_bounded (db : DB) (m : Movie)
    (h : ∀ r ∈ movieReviews db m.id, 1 ≤ r.rating ∧ r.rating ≤ 5) :
    (movieReviews db m.id = [] →
      avg_query db m.id = none ∧ (Movie.update_rating db m).rating = 0) ∧
    (movieReviews db m.id ≠ [] →
      1 ≤ (Movie.update_rating db m).rating ∧
        (Movie.update_rating db m).rating ≤ 5) := by
  constructor
  · intro he
    constructor
    · simp [avg_query, he]
    · simp [Movie.update_rating, he]
  · intro hne
    rw [update_rating_rating]
    exact specRating_bounds _ hne h

theorem update_rating_bounded_witness :
    1 ≤ (Movie.update_rating exDB exMovie1).rating ∧
      (Movie.update_rating exDB exMovie1).rating ≤ 5 :=
  (update_rating_bounded exDB exMovie1 (by decide)).2 (by decide)

theorem rating_consistency_witness :
    RatingInv
      (dbAfter exDB0
        (reviewListPost exDB0 2 2 (some "0123456789") (some 4) 7 3)) :=
  (rating_consistency exDB0
    (by
      intro m hm
      have hm0 : m = exMovie0 := by simpa [exDB0] using hm
      subst hm0
      rfl)
    (by decide)).1 2 2 (some "0123456789") (some 4) 7 3

lemma hasReview_true_of_mem (db : DB) (uid mid : Nat) (t : Review)
    (ht : t ∈ db.reviews) (hm : t.movie_id = mid) (hu : t.user_id = uid) :
    hasReview db uid mid = true := by
  have hmem : t ∈ db.reviews.filter
      (fun r => r.movie_id == mid && r.user_id == uid) :=
    List.mem_filter.mpr ⟨ht, by simp [hm, hu]⟩
  have hp : 0 < (db.reviews.filter
      (fun r => r.movie_id == mid && r.user_id == uid)).length :=
    List.length_pos.mpr (List.ne_nil_of_mem hmem)
  simpa [hasReview] using hp

lemma hasReview_false_not_mem (db : DB) (uid mid : Nat)
    (h : hasReview db uid mid = false) :
    ∀ t ∈ db.reviews, ¬(t.movie_id = mid ∧ t.user_id = uid) := by
  intro t ht hc
  rw [hasReview_true_of_mem db uid mid t ht hc.1 hc.2] at h
  simp at h

lemma reviewUniq_updateMovieRating (db : DB) (mid : Nat)
    (h : List.Pairwise
      (fun a b => ¬(a.user_id = b.user_id ∧ a.movie_id = b.movie_id))
      db.reviews) :
    ReviewUniq (updateMovieRating db mid) := by
  unfold ReviewUniq
  rw [updateMovieRating_reviews]
  exact h

lemma reviewUniq_append (db : DB) (rv : Review) (h : ReviewUniq db)
    (hnew : hasReview db rv.user_id rv.movie_id = false) :
    List.Pairwise
      (fun a b => ¬(a.user_id = b.user_id ∧ a.movie_id = b.movie_id))
      (db.reviews ++ [rv]) := by
  rw [List.pairwise_append]
  refine ⟨h, List.pairwise_singleton _ _, ?_⟩
  intro a ha b hb
  simp only [List.mem_singleton] at hb
  rw [hb]
  intro hc
  exact hasReview_false_not_mem db rv.user_id rv.movie_id hnew a ha
    ⟨hc.2, hc.1⟩

/-- **C2**: at most one review per (user, movie) pair: the uniqueness
invariant is preserved by review creation through the JSON API and through
the web form, and an attempt to create a second review by the same user for
the same movie is rejected (API: 400 conflict; web form: an error before any
state change, the database's unique constraint aborting the transaction). -/
theorem review_unique (db : DB) (uid mid : Nat) (c c2 : String) (rt rt2 : Int)
    (rid now rid2 now2 : Nat) (huniq : ReviewUniq db) :
    ReviewUniq
      (dbAfter db (reviewListPost db uid mid (some c) (some rt) rid now)) ∧
    (∀ uid?, ReviewUniq
      (dbAfter db (movieDetailPost db uid? mid c2 rt2 rid2 now2))) ∧
    (hasReview db uid mid = true →
      reviewListPost db uid mid (some c) (some rt) rid now = .error .conflict ∧
      ∃ e, movieDetailPost db (some uid) mid c2 rt2 rid2 now2 = .error e) := by
  refine ⟨?_, ?_, ?_⟩
  · rcases h1 : hasReview db uid mid with _ | _
    · rcases h2 : (rt < 1 || 5 < rt) with _ | _
      · simpa [reviewListPost, h1, h2, dbAfter] using
          reviewUniq_updateMovieRating _ mid
            (reviewUniq_append db (Review.mk rid c rt uid mid now) huniq h1)
      · simpa [reviewListPost, h1, h2, dbAfter] using huniq
    · simpa [reviewListPost, h1, dbAfter] using huniq
  · intro uid?
    cases hg : getMovie db mid with
    | none => simpa [movieDetailPost, hg, dbAfter] using huniq
    | some mv =>
        rcases hv : reviewFormValid c2 rt2 with _ | _
        · simpa [movieDetailPost, hg, hv, dbAfter] using huniq
        · cases uid? with
          | none => simpa [movieDetailPost, hg, hv, dbAfter] using huniq
          | some u =>
              rcases h1 : hasReview db u mid with _ | _
              · rcases h2 : (rt2 < 1 || 5 < rt2) with _ | _
                · simpa [movieDetailPost, hg, hv, h1, h2, dbAfter] using
                    reviewUniq_updateMovieRating _ mid
                      (reviewUniq_append db (Review.mk rid2 c2 rt2 u mid now2)
                        huniq h1)
                · simpa [movieDetailPost, hg, hv, h1, h2, dbAfter] using huniq
              · simpa [movieDetailPost, hg, hv, h1, dbAfter] using huniq
  · intro hdup
    refine ⟨by simp [reviewListPost, hdup], ?_⟩
    cases hg : getMovie db mid with
    | none => exact ⟨.notFound, by simp [movieDetailPost, hg]⟩
    | some mv =>
        rcases hv : reviewFormValid c2 rt2 with _ | _
        · exact ⟨.validationError, by simp [movieDetailPost, hg, hv]⟩
        · exact ⟨.integrityError, by simp [movieDetailPost, hg, hv, hdup]⟩

theorem review_unique_witness :
    reviewListPost exDB 1 1 (some "0123456789") (some 5) 9 9 =
      .error .conflict :=
  ((review_unique exDB 1 1 "0123456789" "x" 5 4 9 9 8 8
    (by unfold ReviewUniq; decide)).2.2 (by decide)).1

/-- **C7**: a review-creation request whose rating is not an integer in
[1, 5] is rejected with no review persisted and the movie's rating
unchanged: the API parser rejects a non-integer rating with 400, an
out-of-range integer trips the `rating_range_check` constraint (or the
duplicate check first), and the web form's `NumberRange(1, 5)` validator
fails, so in every case the state after the request is the input state. -/
theorem review_rating_rejected (db : DB) (uid mid : Nat) (c : String)
    (rt : Int) (rid now : Nat) (hbad : rt < 1 ∨ 5 < rt) :
    (∃ e, reviewListPost db uid mid (some c) (some rt) rid now = .error e) ∧
    dbAfter db (reviewListPost db uid mid (some c) (some rt) rid now) = db ∧
    reviewListPost db uid mid (some c) none rid now = .error .badRequest ∧
    (∀ uid?, ∃ e, movieDetailPost db uid? mid c rt rid now = .error e) ∧
    (∀ uid?, dbAfter db (movieDetailPost db uid? mid c rt rid now) = db) := by
  have hb : (rt < 1 || 5 < rt) = true := by
    rcases hbad with h | h <;> simp [h]
  have hv : reviewFormValid c rt = false := by
    unfold reviewFormValid
    rcases hbad with h | h
    · have hd : decide (1 ≤ rt) = false := by
        simp only [decide_eq_false_iff_not]
        omega
      simp [hd]
    · have hd : decide (rt ≤ 5) = false := by
        simp only [decide_eq_false_iff_not]
        omega
      simp [hd]
  have hapi : ∃ e, reviewListPost db uid mid (some c) (some rt) rid now =
      .error e := by
    rcases h1 : hasReview db uid mid with _ | _
    · exact ⟨.integrityError, by simp [reviewListPost, h1, hb]⟩
    · exact ⟨.conflict, by simp [reviewListPost, h1]⟩
  have hweb : ∀ uid?, ∃ e, movieDetailPost db uid? mid c rt rid now =
      .error e := by
    intro uid?
    cases hg : getMovie db mid with
    | none => exact ⟨.notFound, by simp [movieDetailPost, hg]⟩
    | some mv => exact ⟨.validationError, by simp [movieDetailPost, hg, hv]⟩
  refine ⟨hapi, ?_, by simp [reviewListPost], hweb, ?_⟩
  · rcases hapi with ⟨e, he⟩
    rw [he]
    rfl
  · intro uid?
    rcases hweb uid? with ⟨e, he⟩
    rw [he]
    rfl

theorem review_rating_rejected_witness :
    ∃ e, reviewListPost exDB 2 1 (some "0123456789") (some 7) 9 9 =
      .error e :=
  (review_rating_rejected exDB 2 1 "0123456789" 7 9 9
    (Or.inr (by decide))).1

/-- **C6**: deleting an existing review succeeds exactly for the review's
author or an admin, and the review is gone afterwards; any other regular
user receives 403 and the state, hence the review, is unchanged. -/
theorem review_delete_auth (db : DB) (actor : User) (rid : Nat) (r : Review)
    (hr : getReview db rid = some r) :
    (r.user_id = actor.id ∨ actor.is_admin = true →
      ∃ db', reviewDelete db actor rid = .ok db' ∧ getReview db' rid = none) ∧
    (r.user_id ≠ actor.id ∧ actor.is_admin = false →
      reviewDelete db actor rid = .error .forbidden ∧
      dbAfter db (reviewDelete db actor rid) = db) := by
  constructor
  · intro hauth
    have hcond : ((r.user_id != actor.id) && !actor.is_admin) = false := by
      rcases hauth with h | h
      · simp [bne, h]
      · simp [h]
    refine ⟨updateMovieRating
        { db with reviews := db.reviews.filter (fun t => !(t.id == rid)) }
        r.movie_id, by simp [reviewDelete, hr, hcond], ?_⟩
    unfold getReview
    rw [updateMovieRating_reviews]
    rw [List.find?_eq_none]
    intro t ht
    have := (List.mem_filter.mp ht).2
    simpa using this
  · intro ⟨hne, hadm⟩
    have hcond : ((r.user_id != actor.id) && !actor.is_admin) = true := by
      simp [bne_iff_ne, hne, hadm]
    have herr : reviewDelete db actor rid = .error .forbidden := by
      simp [reviewDelete, hr, hcond]
    exact ⟨herr, by rw [herr]; rfl⟩

theorem review_delete_auth_witness :
    reviewDelete exDB exUser2 1 = .error .forbidden :=
  ((review_delete_auth exDB exUser2 1 exReview1 (by decide)).2
    ⟨by decide, by decide⟩).1

/-- **C5**: an admin targeting themself with a role change (grant or revoke)
is rejected and no state — in particular the target's admin flag — changes;
when the actor's row exists the response is the warning redirect. -/
theorem self_role_change_blocked (db : DB) (actor : User)
    (ha : actor.is_admin = true) :
    (make_admin db actor actor.id).1 = db ∧
    (remove_admin db actor actor.id).1 = db ∧
    (∀ u, getUser db actor.id = some u →
      (make_admin db actor actor.id).2 = .redirect "admin_users"
        "Вы не можете изменить свой собственный статус" "warning" ∧
      (remove_admin db actor actor.id).2 = .redirect "admin_users"
        "Вы не можете изменить свой собственный статус" "warning") := by
  cases hg : getUser db actor.id with
  | none =>
      refine ⟨by simp [make_admin, ha, hg], by simp [remove_admin, ha, hg],
        fun u hu => ?_⟩
      cases hu
  | some u =>
      have hg' : db.users.find? (fun x => x.id == actor.id) = some u := hg
      have hid : (u.id == actor.id) = true := by
        simpa using List.find?_some hg'
      exact ⟨by simp [make_admin, ha, hg, hid],
        by simp [remove_admin, ha, hg, hid],
        fun v _ => ⟨by simp [make_admin, ha, hg, hid],
          by simp [remove_admin, ha, hg, hid]⟩⟩

theorem self_role_change_blocked_witness :
    (make_admin exDB exUser1 1).1 = exDB :=
  (self_role_change_blocked exDB exUser1 rfl).1

/-- **C8**: the serialized user never contains the stored credential hash:
no `password_hash` key appears in the output, and two users differing only
in `password_hash` serialize identically. -/
theorem to_dict_hides_password_hash (db : DB) (u : User) (h : String) :
    "password_hash" ∉ (User.to_dict db u).map Prod.fst ∧
    User.to_dict db { u with password_hash := h } = User.to_dict db u := by
  constructor
  · simp [User.to_dict]
  · rfl
